import Mathlib

/-!
Verification of the Octopus charging scanner core algorithms.

The Python modules `analyzer.py`, `threshold_tuner.py`, `forecast_tracker.py`
and `forecast_evolution.py` are shallowly embedded below.  Prices, carbon
intensities and scores are modelled as exact rationals (`ℚ`), timestamps as
integer minutes, machine integers as `ℤ`, and Python exceptions as explicit
error values of `Except` types.  Python's stable `list.sort` is modelled by
the stable `List.insertionSort`.
-/

namespace OctopusScanner

/-! ### Python numeric and slicing semantics -/

/-- Python `int()` applied to a (exact) numeric value: truncation toward zero. -/
def pyInt (q : ℚ) : ℤ := if q < 0 then ⌈q⌉ else ⌊q⌋

/-- Python `round()` on an exact value: round half to even (banker's rounding). -/
def pyRound (q : ℚ) : ℤ :=
  if q - ⌊q⌋ < 1/2 then ⌊q⌋
  else if 1/2 < q - ⌊q⌋ then ⌊q⌋ + 1
  else if ⌊q⌋ % 2 = 0 then ⌊q⌋ else ⌊q⌋ + 1

/-- Python `round(x, 1)`: round to one decimal place, half to even. -/
def pyRound1 (q : ℚ) : ℚ := (pyRound (q * 10) : ℚ) / 10

/-- Python list slice `l[a:b]` for integer `a`, `b` (negative indices count
from the end, out-of-range indices are clamped). -/
def pySlice {α : Type} (l : List α) (a b : ℤ) : List α :=
  let n : ℤ := l.length
  let a' : ℤ := if a < 0 then max 0 (n + a) else min a n
  let b' : ℤ := if b < 0 then max 0 (n + b) else min b n
  (l.take b'.toNat).drop a'.toNat

/-! ### `analyzer.py`: data model -/

/-- `OpportunityRating` enum from `analyzer.py`. -/
inductive OpportunityRating
  | EXCELLENT
  | GOOD
  | AVERAGE
  | POOR
deriving DecidableEq, Repr

/-- `PriceSlot` dataclass: electricity price for a time slot (time in minutes,
price in pence/kWh). -/
structure PriceSlot where
  time : ℤ
  price : ℚ
  source : String
deriving DecidableEq, Repr

/-- `CarbonSlot` dataclass: carbon intensity for a time slot (gCO2/kWh). -/
structure CarbonSlot where
  time : ℤ
  intensity : ℤ
deriving DecidableEq, Repr

/-- One entry of the aligned price/carbon series built by `Analyzer._align_data`
(the dict `{"time": …, "price": …, "carbon": …}`). -/
structure AlignedSlot where
  time : ℤ
  price : ℚ
  carbon : ℤ
deriving DecidableEq, Repr

/-- `ChargingWindow` dataclass from `analyzer.py`. -/
structure ChargingWindow where
  start : ℤ
  «end» : ℤ
  avg_price : ℚ
  avg_carbon : ℤ
  total_cost : ℚ
  total_carbon : ℤ
  opportunity_score : ℚ
  rating : OpportunityRating
  reason : String
  savings_vs_baseline : ℚ
deriving DecidableEq, Repr

/-- `ChargingWindow.has_negative_pricing`. -/
def ChargingWindow.has_negative_pricing (w : ChargingWindow) : Prop :=
  w.avg_price < 0

instance (w : ChargingWindow) : Decidable w.has_negative_pricing :=
  inferInstanceAs (Decidable (_ < _))

/-- `ChargingWindow.get_earnings_estimate(kwh=30.0)`: estimated earnings in £
when pricing is negative, `None` otherwise (the Python default for `kwh`
is 30.0). -/
def ChargingWindow.get_earnings_estimate (w : ChargingWindow) (kwh : ℚ) :
    Option ℚ :=
  if w.avg_price < 0 then some |w.avg_price * kwh / 100| else none

/-- The `Analyzer` configuration: weights and thresholds, with the class
defaults from `analyzer.py`. -/
structure Analyzer where
  price_weight : ℚ := 3/5
  carbon_weight : ℚ := 2/5
  price_excellent : ℚ := 10
  price_good : ℚ := 15
  price_average : ℚ := 20
  carbon_excellent : ℚ := 100
  carbon_good : ℚ := 150
  carbon_average : ℚ := 200
deriving DecidableEq, Repr

/-- The weight check in `Analyzer.__init__`: construction succeeds iff
`abs(price_weight + carbon_weight - 1.0) <= 0.01`. -/
def Analyzer.validWeights (a : Analyzer) : Prop :=
  |a.price_weight + a.carbon_weight - 1| ≤ 1/100

instance (a : Analyzer) : Decidable a.validWeights :=
  inferInstanceAs (Decidable (_ ≤ _))

/-- `Analyzer.calculate_price_score`. -/
def Analyzer.calculate_price_score (a : Analyzer) (price : ℚ) : ℚ :=
  if price ≤ a.price_excellent then 100
  else if price ≤ a.price_good then 75
  else if price ≤ a.price_average then 50
  else 25

/-- `Analyzer.calculate_carbon_score` (the mean carbon passed in by
`find_optimal_window` is a float, hence a `ℚ` argument here). -/
def Analyzer.calculate_carbon_score (a : Analyzer) (carbon : ℚ) : ℚ :=
  if carbon ≤ a.carbon_excellent then 100
  else if carbon ≤ a.carbon_good then 75
  else if carbon ≤ a.carbon_average then 50
  else 25

/-- `Analyzer.calculate_opportunity_score`: weighted blend of the two scores. -/
def Analyzer.calculate_opportunity_score (a : Analyzer) (price carbon : ℚ) : ℚ :=
  a.price_weight * a.calculate_price_score price
    + a.carbon_weight * a.calculate_carbon_score carbon

/-- `Analyzer.classify_opportunity`. -/
def Analyzer.classify_opportunity (a : Analyzer) (score : ℚ) : OpportunityRating :=
  if 90 ≤ score then .EXCELLENT
  else if 70 ≤ score then .GOOD
  else if 50 ≤ score then .AVERAGE
  else .POOR

/-- `Analyzer.determine_reason`. -/
def Analyzer.determine_reason (a : Analyzer) (price carbon : ℚ) : String :=
  if price ≤ a.price_good ∧ carbon ≤ a.carbon_good then "both"
  else if price ≤ a.price_good then "cheap"
  else if carbon ≤ a.carbon_good then "clean"
  else "neither"

/-! ### `analyzer.py`: window search -/

/-- Failure modes of `Analyzer.find_optimal_window`: the three `ValueError`s
raised explicitly by the source, plus Python's `ZeroDivisionError` raised when
a window slice is empty and its mean is taken. -/
inductive WindowError
  | dataRequired
  | noOverlap
  | noValidWindow
  | zeroDivision
deriving DecidableEq, Repr

/-- The carbon lookup dict `{slot.time: slot.intensity for slot in carbon_slots}`
(a later slot with the same time overwrites an earlier one). -/
def carbonLookup (carbon_slots : List CarbonSlot) (t : ℤ) : Option ℤ :=
  ((carbon_slots.filter (fun s => s.time == t)).getLast?).map (·.intensity)

/-- `Analyzer._align_data`: inner-join price and carbon slots on exact
timestamps, then sort chronologically (Python's stable sort). -/
def align_data (price_slots : List PriceSlot) (carbon_slots : List CarbonSlot) :
    List AlignedSlot :=
  let aligned := price_slots.filterMap (fun p =>
    (carbonLookup carbon_slots p.time).map
      (fun c => ({ time := p.time, price := p.price, carbon := c } : AlignedSlot)))
  List.insertionSort (fun x y => x.time ≤ y.time) aligned

/-- Mean price of a window slice (`sum(s["price"] for s in w) / len(w)`). -/
def windowAvgPrice (w : List AlignedSlot) : ℚ :=
  (w.map (·.price)).sum / (w.length : ℚ)

/-- Mean carbon of a window slice (`sum(s["carbon"] for s in w) / len(w)`,
true division, so a rational). -/
def windowAvgCarbon (w : List AlignedSlot) : ℚ :=
  ((w.map (·.carbon)).sum : ℚ) / (w.length : ℚ)

/-- Opportunity score of one window slice, as computed inside the search loop
of `find_optimal_window`. -/
def Analyzer.windowScore (a : Analyzer) (w : List AlignedSlot) : ℚ :=
  a.calculate_opportunity_score (windowAvgPrice w) (windowAvgCarbon w)

/-- The search loop of `find_optimal_window`: for each start index `i`, slice
out `aligned_data[i : i + slots_needed]`, take its mean price/carbon and score
it; keep the window exceeding the best score seen (initially `-1.0`, window
`None`).  An empty slice makes the mean divide by zero. -/
def Analyzer.bestLoop (a : Analyzer) (data : List AlignedSlot) (k : ℤ) :
    List ℕ → ℚ × Option (List AlignedSlot) →
    Except WindowError (ℚ × Option (List AlignedSlot))
  | [], st => .ok st
  | i :: rest, (best_score, best_window) =>
    let w := pySlice data (i : ℤ) ((i : ℤ) + k)
    if w.length = 0 then .error .zeroDivision
    else
      let score := a.windowScore w
      if best_score < score then a.bestLoop data k rest (score, some w)
      else a.bestLoop data k rest (best_score, best_window)

/-- The whole search phase of `find_optimal_window` (loop over
`range(len(aligned_data) - slots_needed + 1)` from the initial state). -/
def Analyzer.searchBest (a : Analyzer) (data : List AlignedSlot) (k : ℤ) :
    Except WindowError (ℚ × Option (List AlignedSlot)) :=
  a.bestLoop data k (List.range (((data.length : ℤ) - k + 1).toNat)) (-1, none)

/-- `Analyzer._calculate_baseline_cost`. -/
def Analyzer.calculate_baseline_cost (data : List AlignedSlot)
    (baseline_time : ℤ) (slots_needed : ℤ) (kwh_charged : ℚ) : ℚ :=
  let baseline_slots :=
    match data.findIdx? (fun s => baseline_time ≤ s.time) with
    | some i => pySlice data (i : ℤ) ((i : ℤ) + slots_needed)
    | none => []
  if baseline_slots.length = 0 ∨ (baseline_slots.length : ℤ) < slots_needed then 5
  else windowAvgPrice baseline_slots * kwh_charged / 100

/-- `Analyzer.find_optimal_window`: validate inputs, align, compute
`slots_needed = int(charge_duration_hours * 2)`, search for the best window,
and assemble the `ChargingWindow` (charger power fixed at 7.4 kW, pence→£
conversion by /100). -/
def Analyzer.find_optimal_window (a : Analyzer) (price_slots : List PriceSlot)
    (carbon_slots : List CarbonSlot) (charge_duration_hours : ℚ)
    (baseline_time : Option ℤ) : Except WindowError ChargingWindow :=
  if price_slots.length = 0 ∨ carbon_slots.length = 0 then .error .dataRequired
  else
    let aligned_data := align_data price_slots carbon_slots
    if aligned_data.length = 0 then .error .noOverlap
    else
      let slots_needed : ℤ := pyInt (charge_duration_hours * 2)
      match a.searchBest aligned_data slots_needed with
      | .error e => .error e
      | .ok (_, none) => .error .noValidWindow
      | .ok (best_score, some best_window) =>
        -- the loop only ever stores nonempty slices, so the fallback
        -- branch below is unreachable
        match best_window.head?, best_window.getLast? with
        | some first, some last =>
          let avg_price := windowAvgPrice best_window
          let avg_carbon : ℤ := pyInt (windowAvgCarbon best_window)
          let kwh_charged := charge_duration_hours * (37/5)
          let total_cost := avg_price * kwh_charged / 100
          let total_carbon := pyInt ((avg_carbon : ℚ) * kwh_charged)
          let baseline_cost :=
            match baseline_time with
            | some bt =>
                Analyzer.calculate_baseline_cost aligned_data bt slots_needed
                  kwh_charged
            | none => total_cost * (3/2)
          .ok { start := first.time
                «end» := last.time + 30
                avg_price := avg_price
                avg_carbon := avg_carbon
                total_cost := total_cost
                total_carbon := total_carbon
                opportunity_score := best_score
                rating := a.classify_opportunity best_score
                reason := a.determine_reason avg_price (avg_carbon : ℚ)
                savings_vs_baseline := baseline_cost - total_cost }
        | _, _ => .error .noValidWindow

/-! ### `threshold_tuner.py` -/

/-- `statistics.quantiles(data, n=4)[0]` (CPython's default "exclusive"
method): sort, set `m = len + 1`, `j = clamp(m // 4, 1, len - 1)`,
`delta = m - j * 4`, and linearly interpolate between the order statistics
`data[j-1]` and `data[j]`.  (CPython raises for fewer than two data points;
the caller below only uses lists of length ≥ 7.) -/
def quantilesExclusiveFirst (data : List ℚ) : ℚ :=
  let s := List.insertionSort (fun x y => x ≤ y) data
  let ld : ℤ := s.length
  let m : ℤ := ld + 1
  let j0 : ℤ := m / 4
  let j : ℤ := if j0 < 1 then 1 else if ld - 1 < j0 then ld - 1 else j0
  let delta : ℤ := m - j * 4
  ((s.getD (j - 1).toNat 0) * ((4 : ℚ) - (delta : ℚ))
      + (s.getD j.toNat 0) * (delta : ℚ)) / 4

/-- `statistics.median`: middle order statistic, or the mean of the two middle
ones for even length.  (CPython raises for empty data; the caller below only
uses lists of length ≥ 7.) -/
def pyMedian (data : List ℚ) : ℚ :=
  let s := List.insertionSort (fun x y => x ≤ y) data
  let n := s.length
  if n % 2 = 1 then s.getD (n / 2) 0
  else (s.getD (n / 2 - 1) 0 + s.getD (n / 2) 0) / 2

/-- `ThresholdTuner.calculate_optimal_thresholds`: defaults `(10.0, 15.0)` for
fewer than 7 observations, otherwise the 25th percentile and the median, each
rounded to 1 decimal.  (The unused `days_analyzed` parameter is omitted.) -/
def calculate_optimal_thresholds (historical_prices : List ℚ) : ℚ × ℚ :=
  if historical_prices.length < 7 then (10, 15)
  else (pyRound1 (quantilesExclusiveFirst historical_prices),
        pyRound1 (pyMedian historical_prices))

/-! ### `forecast_tracker.py` -/

/-- The accuracy metrics dict built by `ForecastTracker.record_comparison`.
Only the numeric fields needed by the stated properties are modelled; the
`date`/`timestamp` strings, `rmse` (an irrational square root), `max_error`,
`min_error`, the `errors` excerpt and the `negative_pricing` sub-dict are
omitted. -/
structure ComparisonMetrics where
  num_hours : ℕ
  mean_absolute_error : ℚ
  mean_error : ℚ
  forecast_avg : ℚ
  actual_avg : ℚ
deriving DecidableEq, Repr

/-- Failure modes of `record_comparison`: the explicit `ValueError` for
mismatched lengths, and Python's `ZeroDivisionError` for empty lists. -/
inductive TrackerError
  | lengthMismatch
  | zeroDivision
deriving DecidableEq, Repr

/-- `ForecastTracker.record_comparison`: per-index signed errors
`actual - forecast`, then MAE (mean of absolute errors) and mean error
(signed mean, the systematic bias). -/
def record_comparison (forecast_prices actual_prices : List ℚ) :
    Except TrackerError ComparisonMetrics :=
  if forecast_prices.length ≠ actual_prices.length then .error .lengthMismatch
  else if forecast_prices.length = 0 then .error .zeroDivision
  else
    let errors := (actual_prices.zip forecast_prices).map (fun p => p.1 - p.2)
    let abs_errors := errors.map (fun e => |e|)
    .ok { num_hours := forecast_prices.length
          mean_absolute_error := abs_errors.sum / (abs_errors.length : ℚ)
          mean_error := errors.sum / (errors.length : ℚ)
          forecast_avg := forecast_prices.sum / (forecast_prices.length : ℚ)
          actual_avg := actual_prices.sum / (actual_prices.length : ℚ) }

/-- A stored comparison record, as consumed by `get_recent_accuracy`: its
comparison date (ISO date strings compare like integers) and its MAE. -/
structure ComparisonRecord where
  date : ℤ
  mean_absolute_error : ℚ
deriving DecidableEq, Repr

/-- The trend classification inside `ForecastTracker.get_recent_accuracy`:
sort records by date descending (stable), keep the `days` most recent, and
compare the mean MAE of the first 7 against `mae_values[7:14]` (or
`mae_values[7:]` when fewer than 14 are present). -/
def get_recent_trend (comparisons : List ComparisonRecord) (days : ℕ) : String :=
  if comparisons.length = 0 then "insufficient_data"
  else
    let recent :=
      (List.insertionSort (fun x y => y.date ≤ x.date) comparisons).take days
    if recent.length = 0 then "no_recent_data"
    else
      let mae_values := recent.map (·.mean_absolute_error)
      if 7 ≤ recent.length then
        let recent_7 := mae_values.take 7
        let older_7 :=
          if 14 ≤ mae_values.length then (mae_values.drop 7).take 7
          else mae_values.drop 7
        if older_7.length = 0 then "insufficient_data"
        else
          let recent_avg := recent_7.sum / (recent_7.length : ℚ)
          let older_avg := older_7.sum / (older_7.length : ℚ)
          if recent_avg < older_avg - 1/2 then "improving"
          else if older_avg + 1/2 < recent_avg then "degrading"
          else "stable"
      else "insufficient_data"

/-- The MAE series `get_recent_trend` works on: records sorted by date
descending (stable), truncated to the selected period. -/
def recentMaeValues (comparisons : List ComparisonRecord) (days : ℕ) : List ℚ :=
  ((List.insertionSort (fun x y => y.date ≤ x.date) comparisons).take days).map
    (·.mean_absolute_error)

/-- Trend formula as the specification states it: the mean of the 7 most
recent MAE values against the mean of the next-older up-to-7 values. -/
def specTrendFormula (mae_values : List ℚ) : String :=
  let recent_avg := (mae_values.take 7).sum / ((mae_values.take 7).length : ℚ)
  let older_avg :=
    ((mae_values.drop 7).take 7).sum / (((mae_values.drop 7).take 7).length : ℚ)
  if recent_avg < older_avg - 1/2 then "improving"
  else if older_avg + 1/2 < recent_avg then "degrading"
  else "stable"

/-! ### `forecast_evolution.py` -/

/-- `ForecastEvolutionTracker._calculate_confidence`: time-horizon, source and
historical-accuracy scores blended 40/35/25 and truncated to an int. -/
def calculate_confidence (days_until_target : ℤ) (price_source : String)
    (historical_mae : Option ℚ) : ℤ :=
  let time_score : ℚ :=
    if days_until_target ≤ 1 then 100
    else if days_until_target = 2 then 85
    else if days_until_target ≤ 4 then 60
    else max 30 (100 - (days_until_target : ℚ) * 10)
  let source_score : ℚ := if price_source = "octopus_actual" then 100 else 50
  let accuracy_score : ℚ :=
    match historical_mae with
    | none => 40
    | some mae =>
        if 5 < mae then 40
        else if mae < 2 then 100
        else max 40 (100 - mae * 12)
  pyInt ((2/5) * time_score + (7/20) * source_score + (1/4) * accuracy_score)

/-- The confidence formula as the specification states it (identical inputs,
but the final blend rounded with `round` and the accuracy cases listed in the
order "100 if MAE < 2, 40 if missing or > 5, else …"). -/
def specConfidenceFormula (days_until_target : ℤ) (price_source : String)
    (historical_mae : Option ℚ) : ℚ :=
  (2/5) * (if days_until_target ≤ 1 then (100 : ℚ)
    else if days_until_target = 2 then 85
    else if days_until_target ≤ 4 then 60
    else max 30 (100 - (days_until_target : ℚ) * 10))
  + (7/20) * (if price_source = "octopus_actual" then (100 : ℚ) else 50)
  + (1/4) * (match historical_mae with
      | some mae =>
          if mae < 2 then (100 : ℚ)
          else if 5 < mae then 40
          else max 40 (100 - mae * 12)
      | none => 40)

/-- A forecast snapshot as stored by `record_snapshot` (only the fields the
insert/replace/sort logic and the confidence computation touch; the payload
fields copied verbatim from the day comparison are omitted). -/
structure Snapshot where
  snapshot_date : ℤ
  days_until_target : ℤ
  price_source : String
  confidence_score : ℤ
deriving DecidableEq, Repr

/-- The sort key used by `record_snapshot`: chronological order of snapshot
dates (ISO date strings compare like integers). -/
def snapshotLE (x y : Snapshot) : Prop := x.snapshot_date ≤ y.snapshot_date

instance : DecidableRel snapshotLE := fun x y =>
  inferInstanceAs (Decidable (x.snapshot_date ≤ y.snapshot_date))

instance : IsTotal Snapshot snapshotLE := ⟨fun x y => Int.le_total _ _⟩

instance : IsTrans Snapshot snapshotLE := ⟨fun _ _ _ h₁ h₂ => le_trans h₁ h₂⟩

/-- One call of `ForecastEvolutionTracker.record_snapshot` acting on the
snapshot list of a fixed target date: skip past targets, otherwise drop any
snapshot recorded today, append the new snapshot and sort by snapshot date
(Python's stable sort). -/
def record_snapshot_op (today target : ℤ) (price_source : String)
    (historical_mae : Option ℚ) (snapshots : List Snapshot) : List Snapshot :=
  if target < today then snapshots
  else
    let snap : Snapshot :=
      { snapshot_date := today
        days_until_target := target - today
        price_source := price_source
        confidence_score :=
          calculate_confidence (target - today) price_source historical_mae }
    List.insertionSort snapshotLE
      ((snapshots.filter (fun s => s.snapshot_date != today)) ++ [snap])

/-- The snapshot list of one target after a sequence of `record_snapshot`
calls (each call supplies its "today", price source and historical MAE),
starting from the empty history. -/
def snapshots_after (target : ℤ) (calls : List (ℤ × String × Option ℚ)) :
    List Snapshot :=
  calls.foldl (fun st c => record_snapshot_op c.1 target c.2.1 c.2.2 st) []

/-- Decidable equality for `Except` results, so concrete runs can be checked
by `decide`. -/
instance {ε α : Type} [DecidableEq ε] [DecidableEq α] :
    DecidableEq (Except ε α) := fun x y =>
  match x, y with
  | .error e, .error f =>
      if h : e = f then .isTrue (by rw [h])
      else .isFalse (by intro hh; injection hh; exact h ‹_›)
  | .ok a, .ok b =>
      if h : a = b then .isTrue (by rw [h])
      else .isFalse (by intro hh; injection hh; exact h ‹_›)
  | .error _, .ok _ => .isFalse (by intro hh; exact Except.noConfusion hh)
  | .ok _, .error _ => .isFalse (by intro hh; exact Except.noConfusion hh)

/-! ### Specification-side helpers for the window search -/

/-- The score of the candidate window starting at index `i` of the aligned
series (the quantity the search loop computes for each `i`). -/
def Analyzer.slotWindowScore (a : Analyzer) (data : List AlignedSlot) (k : ℤ)
    (i : ℕ) : ℚ :=
  a.windowScore (pySlice data (i : ℤ) ((i : ℤ) + k))

/-- Pure strict-maximum selection over start indices, mirroring the state of
the search loop (best score so far, best index so far). -/
def selectBest (f : ℕ → ℚ) : List ℕ → ℚ × Option ℕ → ℚ × Option ℕ
  | [], st => st
  | i :: rest, (bs, bj) =>
      if bs < f i then selectBest f rest (f i, some i)
      else selectBest f rest (bs, bj)

/-! ### Concrete inputs used by witnesses and counterexamples -/

/-- An analyzer whose weights pass the `__init__` sum check but are not
nonnegative. -/
def extremeWeightAnalyzer : Analyzer :=
  { price_weight := 2, carbon_weight := -1 }

/-- Eight comparison records (dates 1..8), all with MAE 3. -/
def eightComparisons : List ComparisonRecord :=
  [⟨1, 3⟩, ⟨2, 3⟩, ⟨3, 3⟩, ⟨4, 3⟩, ⟨5, 3⟩, ⟨6, 3⟩, ⟨7, 3⟩, ⟨8, 3⟩]

/-- Two comparison records. -/
def twoComparisons : List ComparisonRecord := [⟨1, 3⟩, ⟨2, 3⟩]

/-- 48 half-hourly price slots, all at excellent prices, with slots `[4, 12)`
uniformly cheaper (4p) than the rest (5p). -/
def allCheapPrices : List PriceSlot :=
  (List.range 48).map (fun i =>
    { time := ((30 * i : ℕ) : ℤ)
      price := if 4 ≤ i ∧ i < 12 then 4 else 5
      source := "octopus" })

/-- Matching 48 carbon slots, all at excellent intensity, with slots `[4, 12)`
uniformly cleaner (40g) than the rest (50g). -/
def allCheapCarbons : List CarbonSlot :=
  (List.range 48).map (fun i =>
    { time := ((30 * i : ℕ) : ℤ)
      intensity := if 4 ≤ i ∧ i < 12 then 40 else 50 })

/-- Four aligned half-hourly price slots at 10p. -/
def fourPriceSlots : List PriceSlot :=
  [⟨0, 10, "octopus"⟩, ⟨30, 10, "octopus"⟩, ⟨60, 10, "octopus"⟩,
   ⟨90, 10, "octopus"⟩]

/-- Four matching carbon slots at 100g. -/
def fourCarbonSlots : List CarbonSlot :=
  [⟨0, 100⟩, ⟨30, 100⟩, ⟨60, 100⟩, ⟨90, 100⟩]

/-- Two aligned price slots: 20p at minute 0, then 5p at minute 30. -/
def twoPriceSlots : List PriceSlot :=
  [⟨0, 20, "octopus"⟩, ⟨30, 5, "octopus"⟩]

/-- Two matching carbon slots at 100g. -/
def twoCarbonSlots : List CarbonSlot := [⟨0, 100⟩, ⟨30, 100⟩]

/-- A single price slot with negative pricing (-5p). -/
def negPriceSlots : List PriceSlot := [⟨0, -5, "octopus"⟩]

/-- The matching single carbon slot. -/
def negCarbonSlots : List CarbonSlot := [⟨0, 100⟩]

/-- The `ChargingWindow` the default analyzer produces on the negative-price
slot for a half-hour charge. -/
def negWindow : ChargingWindow :=
  { start := 0
    «end» := 30
    avg_price := -5
    avg_carbon := 100
    total_cost := -37/200
    total_carbon := 370
    opportunity_score := 100
    rating := .EXCELLENT
    reason := "both"
    savings_vs_baseline := -37/400 }

/-! ### Claim theorems

The `Rat` arithmetic primitives are locally made semireducible so that
concrete runs of the embedded functions can be settled by `decide`. -/

section ClaimProofs

attribute [local semireducible] Rat.add Rat.sub Rat.mul Rat.inv

/-! #### C3: opportunity score range -/

/-- Claim C3 counterexample: the constructor check only constrains the sum of
the weights, so `Analyzer(price_weight=2.0, carbon_weight=-1.0)` is accepted,
yet its opportunity score at price 5p (price score 100) and carbon 300g
(carbon score 25) is `2·100 - 1·25 = 175`, outside `[25, 100]`. -/
theorem C3_score_range_counterexample :
    extremeWeightAnalyzer.validWeights ∧
    extremeWeightAnalyzer.calculate_opportunity_score 5 300 = 175 ∧
    ¬ extremeWeightAnalyzer.calculate_opportunity_score 5 300 ≤ 100 := by
  decide

/-- Claim C3 (amended): for every analyzer whose weights are nonnegative and
sum to exactly 1.0, `calculate_opportunity_score` lies in `[25, 100]` for all
real price and carbon inputs. -/
theorem C3_score_range (a : Analyzer) (price carbon : ℚ)
    (hpw : 0 ≤ a.price_weight) (hcw : 0 ≤ a.carbon_weight)
    (hsum : a.price_weight + a.carbon_weight = 1) :
    25 ≤ a.calculate_opportunity_score price carbon ∧
      a.calculate_opportunity_score price carbon ≤ 100 := by
  have hp : 25 ≤ a.calculate_price_score price ∧
      a.calculate_price_score price ≤ 100 := by
    unfold Analyzer.calculate_price_score
    split_ifs <;> norm_num
  have hc : 25 ≤ a.calculate_carbon_score carbon ∧
      a.calculate_carbon_score carbon ≤ 100 := by
    unfold Analyzer.calculate_carbon_score
    split_ifs <;> norm_num
  have l1 := mul_le_mul_of_nonneg_left hp.1 hpw
  have l2 := mul_le_mul_of_nonneg_left hc.1 hcw
  have u1 := mul_le_mul_of_nonneg_left hp.2 hpw
  have u2 := mul_le_mul_of_nonneg_left hc.2 hcw
  unfold Analyzer.calculate_opportunity_score
  constructor <;> nlinarith

/-- Claim C3 witness: the default analyzer (weights 0.6/0.4) at price 8p and
carbon 90g. -/
theorem C3_score_range_witness :
    0 ≤ ({} : Analyzer).price_weight ∧ 0 ≤ ({} : Analyzer).carbon_weight ∧
    ({} : Analyzer).price_weight + ({} : Analyzer).carbon_weight = 1 ∧
    (25 ≤ ({} : Analyzer).calculate_opportunity_score 8 90 ∧
      ({} : Analyzer).calculate_opportunity_score 8 90 ≤ 100) :=
  ⟨by decide, by decide, by decide,
    C3_score_range {} 8 90 (by decide) (by decide) (by decide)⟩

/-! #### C5: snapshot confidence formula -/

/-- Keeping the accuracy branches in the source's order or in the
specification's order gives the same score. -/
lemma accuracy_branch_order (m : ℚ) :
    (if 5 < m then (40 : ℚ) else if m < 2 then 100 else max 40 (100 - m * 12)) =
    (if m < 2 then (100 : ℚ) else if 5 < m then 40 else max 40 (100 - m * 12)) := by
  by_cases h5 : 5 < m <;> by_cases h2 : m < 2 <;> simp [h5, h2] <;> linarith

/-- Claim C5 counterexample: for a target 1 day out with forecast price data
and no historical MAE the blend is `0.40·100 + 0.35·50 + 0.25·40 = 67.5`; the
code truncates it with `int()` to 67, while the claimed `round(...)` gives
68. -/
theorem C5_confidence_counterexample :
    calculate_confidence 1 "forecast" none = 67 ∧
    pyRound (specConfidenceFormula 1 "forecast" none) = 68 ∧ (67 : ℤ) ≠ 68 := by
  decide

/-- Claim C5 (amended): for every number of days until target, price source
and optional historical MAE, the snapshot confidence equals the specified
weighted blend of time, source and accuracy scores truncated with `int()`
(truncation toward zero) rather than `round(...)`. -/
theorem C5_confidence_formula (days_until_target : ℤ) (price_source : String)
    (historical_mae : Option ℚ) :
    calculate_confidence days_until_target price_source historical_mae =
      pyInt (specConfidenceFormula days_until_target price_source historical_mae) := by
  rcases historical_mae with _ | m
  · rfl
  · simp only [calculate_confidence, specConfidenceFormula]
    rw [accuracy_branch_order]

/-! #### C4: threshold auto-tuning -/

/-- Claim C4 counterexample: on the 11 prices 5..15 the tuner returns
`(7.0, 10.0)` — CPython's `statistics.quantiles` (exclusive method) yields
exactly 7.0 for the 25th percentile here, not the claimed ≈7.5. -/
theorem C4_thresholds_counterexample :
    calculate_optimal_thresholds [5, 6, 7, 8, 9, 10, 11, 12, 13, 14, 15] =
      (7, 10) ∧ (7 : ℚ) ≠ 15/2 := by
  decide

/-- Claim C4 (amended): fewer than 7 prices give the fixed defaults
`(10.0, 15.0)`; at least 7 prices give the 25th percentile (exclusive-method
quantile as in CPython `statistics.quantiles`) and the median, each rounded to
1 decimal; for the 11 prices 5..15 this is `(7.0, 10.0)`. -/
theorem C4_threshold_calculation :
    (∀ prices : List ℚ, prices.length < 7 →
      calculate_optimal_thresholds prices = (10, 15)) ∧
    (∀ prices : List ℚ, 7 ≤ prices.length →
      calculate_optimal_thresholds prices =
        (pyRound1 (quantilesExclusiveFirst prices),
         pyRound1 (pyMedian prices))) ∧
    calculate_optimal_thresholds [5, 6, 7, 8, 9, 10, 11, 12, 13, 14, 15] =
      (7, 10) := by
  refine ⟨fun prices h => ?_, fun prices h => ?_, by decide⟩
  · simp [calculate_optimal_thresholds, h]
  · simp [calculate_optimal_thresholds, Nat.not_lt.2 h]

/-- Claim C4 witness: a 1-element history falls back to the defaults and the
11-price example hits the percentile path. -/
theorem C4_threshold_witness :
    calculate_optimal_thresholds [1] = (10, 15) ∧
    calculate_optimal_thresholds [5, 6, 7, 8, 9, 10, 11, 12, 13, 14, 15] =
      (pyRound1 (quantilesExclusiveFirst [5, 6, 7, 8, 9, 10, 11, 12, 13, 14, 15]),
       pyRound1 (pyMedian [5, 6, 7, 8, 9, 10, 11, 12, 13, 14, 15])) :=
  ⟨C4_threshold_calculation.1 [1] (by decide),
   C4_threshold_calculation.2.1 _ (by decide)⟩

end ClaimProofs

/-! #### C7: MAE dominates the absolute mean error -/

/-- Triangle inequality for list sums of rationals. -/
lemma abs_list_sum_le (l : List ℚ) : |l.sum| ≤ (l.map (fun e => |e|)).sum := by
  induction l with
  | nil => simp
  | cons x xs ih =>
      simp only [List.sum_cons, List.map_cons]
      calc |x + xs.sum| ≤ |x| + |xs.sum| := abs_add _ _
        _ ≤ |x| + (xs.map (fun e => |e|)).sum := by linarith

/-- Claim C7: for equal-length non-empty forecast/actual price lists,
`record_comparison` succeeds and its metrics satisfy
`mean_absolute_error ≥ |mean_error|`. -/
theorem C7_mae_ge_abs_bias (forecast_prices actual_prices : List ℚ)
    (hlen : forecast_prices.length = actual_prices.length)
    (hne : forecast_prices ≠ []) :
    ∃ m, record_comparison forecast_prices actual_prices = .ok m ∧
      |m.mean_error| ≤ m.mean_absolute_error := by
  have h0 : ¬ forecast_prices.length = 0 := by
    simpa [List.length_eq_zero] using hne
  refine ⟨_, by rw [record_comparison, if_neg (by simp [hlen]), if_neg h0], ?_⟩
  set errors :=
    (actual_prices.zip forecast_prices).map (fun p => p.1 - p.2) with herr
  have hlen' : errors.length = forecast_prices.length := by
    simp [herr, List.length_zip, hlen.symm]
  have hpos : (0 : ℚ) < (errors.length : ℚ) := by
    have : 0 < errors.length := by omega
    exact_mod_cast this
  simp only [ComparisonMetrics.mean_error, ComparisonMetrics.mean_absolute_error]
  have h2 : ((errors.map (fun e => |e|)).length : ℚ) = (errors.length : ℚ) := by
    simp
  rw [h2, abs_div, abs_of_pos hpos]
  exact (div_le_div_iff_of_pos_right hpos).2 (abs_list_sum_le errors)

/-- Claim C7 witness: forecast `[1]`, actual `[3]`. -/
theorem C7_mae_ge_abs_bias_witness :
    ∃ m, record_comparison [1] [3] = .ok m ∧
      |m.mean_error| ≤ m.mean_absolute_error :=
  C7_mae_ge_abs_bias [1] [3] rfl (by decide)

/-! #### C6: snapshot history invariants -/

/-- One `record_snapshot` call preserves "one snapshot per calendar day"
(no duplicate snapshot dates) and leaves the list sorted chronologically. -/
lemma record_snapshot_op_preserves (today target : ℤ) (src : String)
    (mae : Option ℚ) (l : List Snapshot)
    (h : ((l.map (·.snapshot_date)).Nodup ∧ List.Sorted snapshotLE l)) :
    ((record_snapshot_op today target src mae l).map (·.snapshot_date)).Nodup ∧
      List.Sorted snapshotLE (record_snapshot_op today target src mae l) := by
  unfold record_snapshot_op
  by_cases hp : target < today
  · simpa [hp] using h
  · rw [if_neg hp]
    set snap : Snapshot :=
      { snapshot_date := today
        days_until_target := target - today
        price_source := src
        confidence_score := calculate_confidence (target - today) src mae }
      with hsnap
    set L := (l.filter (fun s => s.snapshot_date != today)) ++ [snap] with hL
    refine ⟨?_, List.sorted_insertionSort snapshotLE L⟩
    have hperm : List.Perm ((List.insertionSort snapshotLE L).map (·.snapshot_date))
        (L.map (·.snapshot_date)) :=
      (List.perm_insertionSort snapshotLE L).map _
    refine hperm.symm.nodup ?_
    rw [hL, List.map_append, List.nodup_append]
    refine ⟨?_, by simp, ?_⟩
    · exact ((List.filter_sublist l).map (·.snapshot_date)).nodup h.1
    · intro x hx hx'
      simp only [List.map_cons, List.map_nil, List.mem_singleton] at hx'
      obtain ⟨s, hs, rfl⟩ := List.mem_map.1 hx
      have := (List.mem_filter.1 hs).2
      simp only [bne_iff_ne, ne_eq] at this
      exact this (hx' ▸ rfl)

/-- After any sequence of `record_snapshot` calls the stored snapshot list
has pairwise-distinct snapshot dates and is sorted chronologically. -/
lemma snapshots_after_inv (target : ℤ) (calls : List (ℤ × String × Option ℚ)) :
    ((snapshots_after target calls).map (·.snapshot_date)).Nodup ∧
      List.Sorted snapshotLE (snapshots_after target calls) := by
  suffices H : ∀ (cs : List (ℤ × String × Option ℚ)) (l : List Snapshot),
      ((l.map (·.snapshot_date)).Nodup ∧ List.Sorted snapshotLE l) →
      (((cs.foldl (fun st c => record_snapshot_op c.1 target c.2.1 c.2.2 st) l).map
          (·.snapshot_date)).Nodup ∧
        List.Sorted snapshotLE
          (cs.foldl (fun st c => record_snapshot_op c.1 target c.2.1 c.2.2 st) l)) by
    exact H calls [] (by simp)
  intro cs
  induction cs with
  | nil => intro l hl; simpa using hl
  | cons c cs ih =>
      intro l hl
      exact ih _ (record_snapshot_op_preserves c.1 target c.2.1 c.2.2 l hl)

/-- Recording on day `t` for a present-or-future target leaves exactly one
snapshot dated `t`, whatever the previous history was. -/
lemma record_snapshot_count_one (t target : ℤ) (src : String) (mae : Option ℚ)
    (l : List Snapshot) (h : t ≤ target) :
    ((record_snapshot_op t target src mae l).filter
      (fun s => s.snapshot_date == t)).length = 1 := by
  unfold record_snapshot_op
  rw [if_neg (not_lt.2 h), ← List.countP_eq_length_filter,
    (List.perm_insertionSort snapshotLE _).countP_eq, List.countP_append]
  have h0 : (l.filter (fun s => s.snapshot_date != t)).countP
      (fun s => s.snapshot_date == t) = 0 := by
    rw [List.countP_eq_zero]
    intro s hs
    have := (List.mem_filter.1 hs).2
    simp only [bne_iff_ne, ne_eq] at this
    simp [this]
  rw [h0]
  simp

/-- Claim C6: for every target date and every sequence of `record_snapshot`
calls, the stored snapshot list has at most one snapshot per calendar day and
is sorted chronologically; and recording twice on the same day for a
future-or-today target leaves exactly one snapshot for that day. -/
theorem C6_snapshot_invariants (target : ℤ)
    (calls : List (ℤ × String × Option ℚ)) :
    ((snapshots_after target calls).map (·.snapshot_date)).Nodup ∧
    List.Sorted snapshotLE (snapshots_after target calls) ∧
    ∀ (t : ℤ) (s₁ s₂ : String) (m₁ m₂ : Option ℚ), t ≤ target →
      ((record_snapshot_op t target s₂ m₂
          (record_snapshot_op t target s₁ m₁
            (snapshots_after target calls))).filter
        (fun s => s.snapshot_date == t)).length = 1 :=
  ⟨(snapshots_after_inv target calls).1, (snapshots_after_inv target calls).2,
   fun t _ s₂ _ m₂ ht => record_snapshot_count_one t target s₂ m₂ _ ht⟩

/-! #### C9: accuracy trend classification -/

/-- `get_recent_trend`, re-expressed over the truncated MAE series
`recentMaeValues` (the record-list length and the mapped MAE-list length
coincide). -/
lemma get_recent_trend_eq (comparisons : List ComparisonRecord) (days : ℕ) :
    get_recent_trend comparisons days =
      (if comparisons.length = 0 then "insufficient_data"
       else if (recentMaeValues comparisons days).length = 0 then "no_recent_data"
       else if 7 ≤ (recentMaeValues comparisons days).length then
         (let M := recentMaeValues comparisons days
          let older_7 := if 14 ≤ M.length then (M.drop 7).take 7 else M.drop 7
          if older_7.length = 0 then "insufficient_data"
          else if (M.take 7).sum / ((M.take 7).length : ℚ) <
              older_7.sum / (older_7.length : ℚ) - 1/2 then "improving"
          else if older_7.sum / (older_7.length : ℚ) + 1/2 <
              (M.take 7).sum / ((M.take 7).length : ℚ) then "degrading"
          else "stable")
       else "insufficient_data") := by
  simp only [get_recent_trend, recentMaeValues, List.length_map]

/-- Claim C9 (amended): `get_recent_trend` reports `"insufficient_data"` when
at most 7 comparisons fall in the selected period (not 14 as claimed), and
with at least 8 it compares the mean MAE of the 7 most recent records against
the mean of the next-older records — up to 7 of them, however many remain. -/
theorem C9_trend_classification (comparisons : List ComparisonRecord)
    (days : ℕ) :
    (comparisons = [] → get_recent_trend comparisons days = "insufficient_data") ∧
    (recentMaeValues comparisons days ≠ [] →
      (recentMaeValues comparisons days).length < 8 →
      get_recent_trend comparisons days = "insufficient_data") ∧
    (8 ≤ (recentMaeValues comparisons days).length →
      get_recent_trend comparisons days =
        specTrendFormula (recentMaeValues comparisons days)) := by
  refine ⟨fun h => by subst h; rfl, fun hne hlt => ?_, fun h8 => ?_⟩
  · have hmne : ¬ (recentMaeValues comparisons days).length = 0 := by
      simpa [List.length_eq_zero] using hne
    have h0 : ¬ comparisons.length = 0 := by
      intro hh
      rw [List.length_eq_zero] at hh
      subst hh
      simp [recentMaeValues, List.insertionSort] at hne
    rw [get_recent_trend_eq, if_neg h0, if_neg hmne]
    by_cases h7 : 7 ≤ (recentMaeValues comparisons days).length
    · rw [if_pos h7]
      simp only []
      rw [if_neg (by omega :
        ¬ (14:ℕ) ≤ (recentMaeValues comparisons days).length)]
      rw [List.drop_eq_nil_of_le (by omega)]
      rfl
    · rw [if_neg h7]
  · have hmne : ¬ (recentMaeValues comparisons days).length = 0 := by omega
    have h0 : ¬ comparisons.length = 0 := by
      intro hh
      rw [List.length_eq_zero] at hh
      subst hh
      simp [recentMaeValues, List.insertionSort] at h8
    rw [get_recent_trend_eq, if_neg h0, if_neg hmne, if_pos (by omega :
      7 ≤ (recentMaeValues comparisons days).length)]
    simp only []
    by_cases h14 : 14 ≤ (recentMaeValues comparisons days).length
    · rw [if_pos h14]
      rw [if_neg (by rw [List.length_take, List.length_drop]; omega)]
      rfl
    · rw [if_neg h14]
      rw [if_neg (by rw [List.length_drop]; omega)]
      have heq : ((recentMaeValues comparisons days).drop 7).take 7 =
          (recentMaeValues comparisons days).drop 7 :=
        List.take_of_length_le (by rw [List.length_drop]; omega)
      simp only [specTrendFormula, heq]

/-- Claim C9 witness: two records report insufficient data; eight records are
classified by the 7-vs-next-older comparison. -/
theorem C9_trend_witness :
    get_recent_trend twoComparisons 30 = "insufficient_data" ∧
    get_recent_trend eightComparisons 30 =
      specTrendFormula (recentMaeValues eightComparisons 30) :=
  ⟨(C9_trend_classification twoComparisons 30).2.1 (by decide) (by decide),
   (C9_trend_classification eightComparisons 30).2.2 (by decide)⟩

/-! #### Window-search lemmas (shared by C1, C2, C8, C10) -/

/-- For a start index `i` with `0 ≤ k` and `i + k ≤ len`, the Python slice
`data[i : i + k]` is `(data.drop i).take k`. -/
lemma pySlice_eq_drop_take (data : List AlignedSlot) (i : ℕ) (k : ℤ)
    (hk : 0 ≤ k) (hik : (i : ℤ) + k ≤ (data.length : ℤ)) :
    pySlice data (i : ℤ) ((i : ℤ) + k) = (data.drop i).take k.toNat := by
  simp only [pySlice]
  rw [if_neg (by omega : ¬ (i : ℤ) < 0), if_neg (by omega : ¬ (i : ℤ) + k < 0),
    min_eq_left (by omega : (i : ℤ) ≤ (data.length : ℤ)),
    min_eq_left hik]
  have h1 : ((i : ℤ) + k).toNat = i + k.toNat := by omega
  have h2 : ((i : ℤ)).toNat = i := by omega
  rw [h1, h2, List.drop_take]
  congr 1
  omega

/-- Such a slice has exactly `k` elements. -/
lemma pySlice_length (data : List AlignedSlot) (i : ℕ) (k : ℤ)
    (hk : 1 ≤ k) (hik : (i : ℤ) + k ≤ (data.length : ℤ)) :
    (pySlice data (i : ℤ) ((i : ℤ) + k)).length = k.toNat := by
  rw [pySlice_eq_drop_take data i k (by omega) hik, List.length_take,
    List.length_drop]
  omega

/-- Entry `m` of such a slice is entry `i + m` of the aligned series. -/
lemma pySlice_getElem? (data : List AlignedSlot) (i m : ℕ) (k : ℤ)
    (hk : 1 ≤ k) (hik : (i : ℤ) + k ≤ (data.length : ℤ)) (hm : m < k.toNat) :
    (pySlice data (i : ℤ) ((i : ℤ) + k))[m]? = data[i + m]? := by
  rw [pySlice_eq_drop_take data i k (by omega) hik,
    List.getElem?_take_of_lt hm, List.getElem?_drop]

/-- If some index in the worklist yields an empty slice, the search loop ends
in the division-by-zero error (Python evaluates the loop body in index
order and the first empty slice raises). -/
lemma bestLoop_error_of_mem (a : Analyzer) (data : List AlignedSlot) (k : ℤ)
    (l : List ℕ) (st : ℚ × Option (List AlignedSlot))
    (h : ∃ i ∈ l, (pySlice data (i : ℤ) ((i : ℤ) + k)).length = 0) :
    a.bestLoop data k l st = .error .zeroDivision := by
  induction l generalizing st with
  | nil => simp at h
  | cons j rest ih =>
      obtain ⟨bs, bw⟩ := st
      obtain ⟨i, hmem, hlen⟩ := h
      simp only [Analyzer.bestLoop]
      by_cases hj : (pySlice data (j : ℤ) ((j : ℤ) + k)).length = 0
      · rw [if_pos hj]
      · rw [if_neg hj]
        have hrest : i ∈ rest := by
          rcases List.mem_cons.1 hmem with rfl | h'
          · exact absurd hlen hj
          · exact h'
        by_cases hc : bs < a.windowScore (pySlice data (j : ℤ) ((j : ℤ) + k))
        · rw [if_pos hc]; exact ih _ ⟨i, hrest, hlen⟩
        · rw [if_neg hc]; exact ih _ ⟨i, hrest, hlen⟩

/-- With `slots_needed ≤ 0` and a nonempty aligned series, the search always
hits an empty slice, so it raises the division-by-zero error. -/
lemma searchBest_error_of_nonpos (a : Analyzer) (data : List AlignedSlot)
    (k : ℤ) (hk : k ≤ 0) (hne : data.length ≠ 0) :
    a.searchBest data k = .error .zeroDivision := by
  apply bestLoop_error_of_mem
  refine ⟨((data.length : ℤ) - k).toNat, by rw [List.mem_range]; omega, ?_⟩
  simp only [pySlice]
  have h1 : ((((data.length : ℤ) - k).toNat : ℕ) : ℤ) =
      (data.length : ℤ) - k := by omega
  rw [h1]
  have h2 : (data.length : ℤ) - k + k = (data.length : ℤ) := by ring
  rw [h2]
  rw [if_neg (by omega : ¬ (data.length : ℤ) - k < 0),
    if_neg (by omega : ¬ (data.length : ℤ) < 0),
    min_eq_right (by omega : (data.length : ℤ) ≤ (data.length : ℤ) - k),
    min_self]
  simp [List.length_drop, List.length_take]

/-- With nonnegative weights every window score is nonnegative (each
component score is at least 25), hence above the loop's initial `-1.0`. -/
lemma windowScore_nonneg (a : Analyzer) (hpw : 0 ≤ a.price_weight)
    (hcw : 0 ≤ a.carbon_weight) (w : List AlignedSlot) :
    0 ≤ a.windowScore w := by
  have h1 : 0 ≤ a.calculate_price_score (windowAvgPrice w) := by
    unfold Analyzer.calculate_price_score
    split_ifs <;> norm_num
  have h2 : 0 ≤ a.calculate_carbon_score (windowAvgCarbon w) := by
    unfold Analyzer.calculate_carbon_score
    split_ifs <;> norm_num
  unfold Analyzer.windowScore Analyzer.calculate_opportunity_score
  have := mul_nonneg hpw h1
  have := mul_nonneg hcw h2
  linarith

/-- Invariant of the strict-maximum selection: starting from a champion `j`
that beats all indices below `m` (strictly below `j`), processing the indices
`m, m+1, …, m+c-1` yields the first-occurrence maximum over all of them. -/
lemma selectBest_range' (f : ℕ → ℚ) :
    ∀ (c m j : ℕ), j < m → (∀ i < m, f i ≤ f j) → (∀ i < j, f i < f j) →
      ∃ j', selectBest f (List.range' m c) (f j, some j) = (f j', some j') ∧
        j' < m + c ∧ (∀ i < m + c, f i ≤ f j') ∧ (∀ i < j', f i < f j') := by
  intro c
  induction c with
  | zero =>
      intro m j h1 h2 h3
      exact ⟨j, rfl, by omega, fun i hi => h2 i (by omega), h3⟩
  | succ c ih =>
      intro m j h1 h2 h3
      rw [List.range'_succ]
      simp only [selectBest]
      by_cases hc : f j < f m
      · rw [if_pos hc]
        obtain ⟨j', hj'1, hj'2, hj'3, hj'4⟩ := ih (m + 1) m (by omega)
          (fun i hi => by
            rcases Nat.lt_succ_iff_lt_or_eq.1 hi with h | h
            · exact le_of_lt (lt_of_le_of_lt (h2 i h) hc)
            · subst h; exact le_refl _)
          (fun i hi => lt_of_le_of_lt (h2 i hi) hc)
        exact ⟨j', hj'1, by omega, fun i hi => hj'3 i (by omega), hj'4⟩
      · rw [if_neg hc]
        obtain ⟨j', hj'1, hj'2, hj'3, hj'4⟩ := ih (m + 1) j (by omega)
          (fun i hi => by
            rcases Nat.lt_succ_iff_lt_or_eq.1 hi with h | h
            · exact h2 i h
            · subst h; exact not_lt.1 hc)
          h3
        exact ⟨j', hj'1, by omega, fun i hi => hj'3 i (by omega), hj'4⟩

/-- Over the full index range, starting from the loop's initial state
(score `-1`, no window), the selection returns the first-occurrence
maximum, provided the first score exceeds `-1`. -/
lemma selectBest_range (f : ℕ → ℚ) (n : ℕ) (hn : 0 < n) (h0 : -1 < f 0) :
    ∃ j, selectBest f (List.range n) (-1, none) = (f j, some j) ∧
      j < n ∧ (∀ i < n, f i ≤ f j) ∧ (∀ i < j, f i < f j) := by
  obtain ⟨c, rfl⟩ : ∃ c, n = c + 1 := ⟨n - 1, by omega⟩
  rw [List.range_eq_range', List.range'_succ]
  simp only [selectBest]
  rw [if_pos h0]
  obtain ⟨j', hj'1, hj'2, hj'3, hj'4⟩ := selectBest_range' f c 1 0 (by omega)
    (fun i hi => by
      have : i = 0 := by omega
      subst this
      exact le_refl _)
    (fun i hi => absurd hi (by omega))
  exact ⟨j', hj'1, by omega, fun i hi => hj'3 i (by omega), hj'4⟩

/-- When every slice in the worklist is nonempty, the search loop is the pure
strict-maximum selection (states correspond by slicing the best index). -/
lemma bestLoop_eq_selectBest (a : Analyzer) (data : List AlignedSlot) (k : ℤ) :
    ∀ (l : List ℕ) (bs : ℚ) (bj : Option ℕ),
      (∀ i ∈ l, (pySlice data (i : ℤ) ((i : ℤ) + k)).length ≠ 0) →
      a.bestLoop data k l
        (bs, bj.map (fun (j : ℕ) => pySlice data (j : ℤ) ((j : ℤ) + k))) =
      .ok ((selectBest (a.slotWindowScore data k) l (bs, bj)).1,
        ((selectBest (a.slotWindowScore data k) l (bs, bj)).2).map
          (fun (j : ℕ) => pySlice data (j : ℤ) ((j : ℤ) + k))) := by
  intro l
  induction l with
  | nil => intro bs bj h; rfl
  | cons i rest ih =>
      intro bs bj h
      have hi := h i (List.mem_cons_self _ _)
      simp only [Analyzer.bestLoop, selectBest, Analyzer.slotWindowScore]
      rw [if_neg hi]
      by_cases hc : bs < a.windowScore (pySlice data (i : ℤ) ((i : ℤ) + k))
      · rw [if_pos hc, if_pos hc]
        have := ih (a.windowScore (pySlice data (i : ℤ) ((i : ℤ) + k))) (some i)
          (fun x hx => h x (List.mem_cons_of_mem _ hx))
        simpa [Analyzer.slotWindowScore] using this
      · rw [if_neg hc, if_neg hc]
        have := ih bs bj (fun x hx => h x (List.mem_cons_of_mem _ hx))
        simpa [Analyzer.slotWindowScore] using this

/-- The search phase, for nonnegative weights and `1 ≤ slots_needed ≤ len`:
it succeeds with the first-occurrence maximum-score window. -/
lemma searchBest_ok (a : Analyzer) (data : List AlignedSlot) (k : ℤ)
    (hpw : 0 ≤ a.price_weight) (hcw : 0 ≤ a.carbon_weight)
    (hk : 1 ≤ k) (hkn : k ≤ (data.length : ℤ)) :
    ∃ j : ℕ, a.searchBest data k =
        .ok (a.slotWindowScore data k j,
          some (pySlice data (j : ℤ) ((j : ℤ) + k))) ∧
      (j : ℤ) + k ≤ (data.length : ℤ) ∧
      (∀ i : ℕ, (i : ℤ) + k ≤ (data.length : ℤ) →
        a.slotWindowScore data k i ≤ a.slotWindowScore data k j) ∧
      (∀ i < j, a.slotWindowScore data k i < a.slotWindowScore data k j) := by
  have hcnt : (((data.length : ℤ) - k + 1)).toNat =
      data.length - k.toNat + 1 := by omega
  have hcnt_pos : 0 < (((data.length : ℤ) - k + 1)).toNat := by omega
  have hmem : ∀ i ∈ List.range ((((data.length : ℤ) - k + 1)).toNat),
      (pySlice data (i : ℤ) ((i : ℤ) + k)).length ≠ 0 := by
    intro i hi
    rw [List.mem_range] at hi
    rw [pySlice_length data i k hk (by omega)]
    omega
  have h0 : -1 < a.slotWindowScore data k 0 :=
    lt_of_lt_of_le (by norm_num) (windowScore_nonneg a hpw hcw _)
  obtain ⟨j, hsel, hjlt, hmax, hfirst⟩ :=
    selectBest_range (a.slotWindowScore data k)
      ((((data.length : ℤ) - k + 1)).toNat) hcnt_pos h0
  have hloop := bestLoop_eq_selectBest a data k
    (List.range ((((data.length : ℤ) - k + 1)).toNat)) (-1) none hmem
  refine ⟨j, ?_, by omega, fun i hik => hmax i (by omega), hfirst⟩
  unfold Analyzer.searchBest
  rw [show ((-1 : ℚ), (none : Option (List AlignedSlot))) =
    ((-1 : ℚ), (none : Option ℕ).map
      (fun (j : ℕ) => pySlice data (j : ℤ) ((j : ℤ) + k))) from rfl]
  rw [hloop, hsel]
  rfl

/-- Full success-case description of `find_optimal_window` (no baseline time):
for nonnegative weights, nonempty inputs and `1 ≤ slots_needed ≤ len`, the call
returns a window built from the earliest maximum-score slice. -/
lemma find_ok_build (a : Analyzer) (ps : List PriceSlot) (cs : List CarbonSlot)
    (d : ℚ) (hpw : 0 ≤ a.price_weight) (hcw : 0 ≤ a.carbon_weight)
    (hps : ps ≠ []) (hcs : cs ≠ [])
    (hk : 1 ≤ pyInt (d * 2))
    (hkn : pyInt (d * 2) ≤ ((align_data ps cs).length : ℤ)) :
    ∃ (j : ℕ) (first last : AlignedSlot) (w : ChargingWindow),
      a.find_optimal_window ps cs d none = .ok w ∧
      (align_data ps cs)[j]? = some first ∧
      (align_data ps cs)[j + (pyInt (d * 2)).toNat - 1]? = some last ∧
      w.start = first.time ∧
      w.«end» = last.time + 30 ∧
      w.avg_price = windowAvgPrice
        (pySlice (align_data ps cs) (j : ℤ) ((j : ℤ) + pyInt (d * 2))) ∧
      w.total_cost = w.avg_price * (d * (37/5)) / 100 ∧
      w.opportunity_score =
        a.slotWindowScore (align_data ps cs) (pyInt (d * 2)) j ∧
      (j : ℤ) + pyInt (d * 2) ≤ ((align_data ps cs).length : ℤ) ∧
      (∀ i : ℕ, (i : ℤ) + pyInt (d * 2) ≤ ((align_data ps cs).length : ℤ) →
        a.slotWindowScore (align_data ps cs) (pyInt (d * 2)) i ≤
          a.slotWindowScore (align_data ps cs) (pyInt (d * 2)) j) ∧
      (∀ i < j, a.slotWindowScore (align_data ps cs) (pyInt (d * 2)) i <
          a.slotWindowScore (align_data ps cs) (pyInt (d * 2)) j) := by
  obtain ⟨j, hsb, hjk, hmax, hflt⟩ :=
    searchBest_ok a (align_data ps cs) (pyInt (d * 2)) hpw hcw hk hkn
  have hwlen : (pySlice (align_data ps cs) (j : ℤ)
      ((j : ℤ) + pyInt (d * 2))).length = (pyInt (d * 2)).toNat :=
    pySlice_length _ j _ hk hjk
  have hj_lt : j < (align_data ps cs).length := by omega
  have hl_lt : j + (pyInt (d * 2)).toNat - 1 < (align_data ps cs).length := by
    omega
  obtain ⟨first, hfirstD⟩ : ∃ x, (align_data ps cs)[j]? = some x :=
    ⟨_, List.getElem?_eq_getElem hj_lt⟩
  obtain ⟨last, hlastD⟩ :
      ∃ x, (align_data ps cs)[j + (pyInt (d * 2)).toNat - 1]? = some x :=
    ⟨_, List.getElem?_eq_getElem hl_lt⟩
  have hhead : (pySlice (align_data ps cs) (j : ℤ)
      ((j : ℤ) + pyInt (d * 2))).head? = some first := by
    rw [List.head?_eq_getElem?, pySlice_getElem? _ j 0 _ hk hjk (by omega)]
    simpa using hfirstD
  have hlast : (pySlice (align_data ps cs) (j : ℤ)
      ((j : ℤ) + pyInt (d * 2))).getLast? = some last := by
    rw [List.getLast?_eq_getElem?, hwlen,
      pySlice_getElem? _ j ((pyInt (d * 2)).toNat - 1) _ hk hjk (by omega)]
    have : j + ((pyInt (d * 2)).toNat - 1) = j + (pyInt (d * 2)).toNat - 1 := by
      omega
    rw [this]
    exact hlastD
  have hc1 : ¬ (ps.length = 0 ∨ cs.length = 0) := by
    simp [List.length_eq_zero, hps, hcs]
  have hc2 : ¬ (align_data ps cs).length = 0 := by omega
  have hfind : ∃ w : ChargingWindow,
      a.find_optimal_window ps cs d none = .ok w ∧
      w.start = first.time ∧ w.«end» = last.time + 30 ∧
      w.avg_price = windowAvgPrice
        (pySlice (align_data ps cs) (j : ℤ) ((j : ℤ) + pyInt (d * 2))) ∧
      w.total_cost = w.avg_price * (d * (37/5)) / 100 ∧
      w.opportunity_score =
        a.slotWindowScore (align_data ps cs) (pyInt (d * 2)) j := by
    simp only [Analyzer.find_optimal_window]
    rw [if_neg hc1, if_neg hc2]
    simp only [hsb, hhead, hlast]
    exact ⟨_, rfl, rfl, rfl, rfl, rfl, rfl⟩
  obtain ⟨w, h1, h2, h3, h4, h5, h6⟩ := hfind
  exact ⟨j, first, last, w, h1, hfirstD, hlastD, h2, h3, h4, h5, h6,
    hjk, hmax, hflt⟩

/-- Claim C1 (amended): for nonnegative weights, nonempty inputs and
`1 ≤ slots_needed ≤` number of aligned slots, `find_optimal_window` returns
the window whose opportunity score is maximal among all contiguous
`slots_needed`-slot windows, taking the earliest start index among ties
(strict `>` comparison keeps the first occurrence). -/
theorem C1_first_maximum_window (a : Analyzer) (ps : List PriceSlot)
    (cs : List CarbonSlot) (d : ℚ)
    (hpw : 0 ≤ a.price_weight) (hcw : 0 ≤ a.carbon_weight)
    (hps : ps ≠ []) (hcs : cs ≠ [])
    (hk : 1 ≤ pyInt (d * 2))
    (hkn : pyInt (d * 2) ≤ ((align_data ps cs).length : ℤ)) :
    ∃ (j : ℕ) (w : ChargingWindow),
      a.find_optimal_window ps cs d none = .ok w ∧
      ((align_data ps cs)[j]?.map (·.time)) = some w.start ∧
      w.opportunity_score =
        a.slotWindowScore (align_data ps cs) (pyInt (d * 2)) j ∧
      (∀ i : ℕ, (i : ℤ) + pyInt (d * 2) ≤ ((align_data ps cs).length : ℤ) →
        a.slotWindowScore (align_data ps cs) (pyInt (d * 2)) i ≤
          a.slotWindowScore (align_data ps cs) (pyInt (d * 2)) j) ∧
      (∀ i < j, a.slotWindowScore (align_data ps cs) (pyInt (d * 2)) i <
          a.slotWindowScore (align_data ps cs) (pyInt (d * 2)) j) := by
  obtain ⟨j, first, last, w, hfind, hfirstD, _, hstart, _, _, _, hscore, _,
    hmax, hflt⟩ := find_ok_build a ps cs d hpw hcw hps hcs hk hkn
  refine ⟨j, w, hfind, ?_, hscore, hmax, hflt⟩
  rw [hfirstD, hstart]
  rfl

/-- In a 30-minute-spaced aligned series, entry `i + m` is `30·m` minutes
after entry `i`. -/
lemma chain_time_arith (l : List AlignedSlot)
    (h : List.Chain' (fun x y => y.time = x.time + 30) l) :
    ∀ (i m : ℕ) (x : AlignedSlot), l[i]? = some x →
      ∀ y : AlignedSlot, l[i + m]? = some y → y.time = x.time + 30 * m := by
  intro i m x hx
  induction m with
  | zero =>
      intro y hy
      rw [Nat.add_zero, hx] at hy
      injection hy with hy
      subst hy
      simp
  | succ m ih =>
      intro y hy
      have hlt : i + (m + 1) < l.length := by
        rcases List.getElem?_eq_some.1 hy with ⟨hl, _⟩
        exact hl
      have hmid : i + m < l.length := by omega
      obtain ⟨z, hz⟩ : ∃ z, l[i + m]? = some z :=
        ⟨_, List.getElem?_eq_getElem hmid⟩
      have hstep : y.time = z.time + 30 := by
        rw [List.chain'_iff_get] at h
        have hadj := h (i + m) (by omega)
        have hz' : l.get ⟨i + m, by omega⟩ = z := by
          have h1 := List.getElem?_eq_getElem hmid
          rw [hz] at h1
          injection h1 with h1
          simpa [List.get_eq_getElem] using h1.symm
        have hy' : l.get ⟨i + m + 1, by omega⟩ = y := by
          have h1 : l[i + m + 1]? = some y := by
            rw [show i + m + 1 = i + (m + 1) by omega]
            exact hy
          rw [List.getElem?_eq_getElem
            (show i + m + 1 < l.length by omega)] at h1
          injection h1 with h1
          try simpa [List.get_eq_getElem] using h1
        rw [hz', hy'] at hadj
        exact hadj
      have hzx := ih z hz
      rw [hstep, hzx]
      push_cast
      ring

/-- Claim C2 (amended): `slots_needed = int(duration × 2)` — truncation toward
zero, not `round` — and when the aligned series is 30-minute spaced, a
successful window spans exactly `slots_needed` half-hour intervals:
`end − start = 30 × int(duration × 2)`. -/
theorem C2_window_span (a : Analyzer) (ps : List PriceSlot)
    (cs : List CarbonSlot) (d : ℚ)
    (hpw : 0 ≤ a.price_weight) (hcw : 0 ≤ a.carbon_weight)
    (hps : ps ≠ []) (hcs : cs ≠ [])
    (hk : 1 ≤ pyInt (d * 2))
    (hkn : pyInt (d * 2) ≤ ((align_data ps cs).length : ℤ))
    (hchain : List.Chain' (fun x y => y.time = x.time + 30) (align_data ps cs)) :
    ∃ w : ChargingWindow,
      a.find_optimal_window ps cs d none = .ok w ∧
      w.«end» - w.start = 30 * pyInt (d * 2) := by
  obtain ⟨j, first, last, w, hfind, hfirstD, hlastD, hstart, hend, _, _, _,
    hjk, _, _⟩ := find_ok_build a ps cs d hpw hcw hps hcs hk hkn
  have hidx : j + ((pyInt (d * 2)).toNat - 1) =
      j + (pyInt (d * 2)).toNat - 1 := by omega
  have hlast' : (align_data ps cs)[j + ((pyInt (d * 2)).toNat - 1)]? =
      some last := by rw [hidx]; exact hlastD
  have htime := chain_time_arith (align_data ps cs) hchain j
    ((pyInt (d * 2)).toNat - 1) first hfirstD last hlast'
  refine ⟨w, hfind, ?_⟩
  rw [hstart, hend, htime]
  have hcast : (((pyInt (d * 2)).toNat - 1 : ℕ) : ℤ) = pyInt (d * 2) - 1 := by
    omega
  rw [hcast]
  ring

/-- Inversion on a successful `find_optimal_window` call (any baseline time,
any analyzer): success forces `slots_needed = int(duration × 2) ≥ 1`, and the
returned window's total cost is `avg_price × duration × 7.4 / 100`. -/
lemma find_ok_total_cost (a : Analyzer) (ps : List PriceSlot)
    (cs : List CarbonSlot) (d : ℚ) (bt : Option ℤ) (w : ChargingWindow)
    (h : a.find_optimal_window ps cs d bt = .ok w) :
    1 ≤ pyInt (d * 2) ∧ w.total_cost = w.avg_price * (d * (37/5)) / 100 := by
  simp only [Analyzer.find_optimal_window] at h
  by_cases hc1 : ps.length = 0 ∨ cs.length = 0
  · rw [if_pos hc1] at h; exact absurd h (by simp)
  rw [if_neg hc1] at h
  by_cases hc2 : (align_data ps cs).length = 0
  · rw [if_pos hc2] at h; exact absurd h (by simp)
  rw [if_neg hc2] at h
  have hk : 1 ≤ pyInt (d * 2) := by
    by_contra hk
    push_neg at hk
    rw [searchBest_error_of_nonpos a (align_data ps cs) (pyInt (d * 2))
      (by omega) hc2] at h
    exact absurd h (by simp)
  refine ⟨hk, ?_⟩
  rcases hsb : a.searchBest (align_data ps cs) (pyInt (d * 2)) with e | st
  · simp only [hsb] at h
    exact absurd h (by simp)
  obtain ⟨s, bw⟩ := st
  rcases bw with _ | win
  · simp only [hsb] at h
    exact absurd h (by simp)
  simp only [hsb] at h
  rcases hh : win.head? with _ | first
  · rcases hg : win.getLast? with _ | last <;> simp only [hh, hg] at h <;>
      exact absurd h (by simp)
  rcases hg : win.getLast? with _ | last
  · simp only [hh, hg] at h
    exact absurd h (by simp)
  simp only [hh, hg] at h
  have hw := (Except.ok.inj h).symm
  subst hw
  rfl

/-- Claim C8: any window produced by `find_optimal_window` with a negative
average price has a negative total cost and a non-null positive earnings
estimate `|avg_price| × kwh / 100`; a non-negative average price yields a null
earnings estimate. -/
theorem C8_negative_pricing_earnings (a : Analyzer) (ps : List PriceSlot)
    (cs : List CarbonSlot) (d : ℚ) (bt : Option ℤ) (w : ChargingWindow)
    (kwh : ℚ) (h : a.find_optimal_window ps cs d bt = .ok w)
    (hkwh : 0 < kwh) :
    (w.avg_price < 0 → w.total_cost < 0 ∧
      w.get_earnings_estimate kwh = some (|w.avg_price| * kwh / 100) ∧
      0 < |w.avg_price| * kwh / 100) ∧
    (0 ≤ w.avg_price → w.get_earnings_estimate kwh = none) := by
  obtain ⟨hk, htc⟩ := find_ok_total_cost a ps cs d bt w h
  have hd2 : (1 : ℚ) ≤ d * 2 := by
    rw [pyInt] at hk
    by_cases hneg : d * 2 < 0
    · rw [if_pos hneg] at hk
      exact absurd (Int.ceil_le.2 (le_of_lt hneg)) (by push_cast; omega)
    · rw [if_neg hneg] at hk
      exact_mod_cast Int.le_floor.1 hk
  have hkwhp : (0 : ℚ) < d * (37/5) := by nlinarith
  constructor
  · intro hneg
    refine ⟨?_, ?_, ?_⟩
    · rw [htc]
      exact div_neg_of_neg_of_pos (mul_neg_of_neg_of_pos hneg hkwhp)
        (by norm_num)
    · rw [ChargingWindow.get_earnings_estimate, if_pos hneg]
      congr 1
      rw [abs_div, abs_mul, abs_of_pos hkwh,
        abs_of_pos (by norm_num : (0:ℚ) < 100)]
    · exact div_pos (mul_pos (abs_pos.2 (ne_of_lt hneg)) hkwh) (by norm_num)
  · intro hpos
    rw [ChargingWindow.get_earnings_estimate, if_neg (not_lt.2 hpos)]

/-- Claim C10: for a charge duration strictly between 0 and half an hour and
inputs with at least one aligned slot, `slots_needed` is 0, the first loop
iteration takes the mean of the empty slice `aligned_data[0:0]`, and the call
ends in an (unguarded) division by zero — neither a `ChargingWindow` nor one
of the documented `ValueError`s. -/
theorem C10_zero_window_division (a : Analyzer) (ps : List PriceSlot)
    (cs : List CarbonSlot) (d : ℚ) (bt : Option ℤ)
    (hps : ps ≠ []) (hcs : cs ≠ [])
    (hdata : align_data ps cs ≠ []) (hd0 : 0 < d) (hd : d < 1/2) :
    a.find_optimal_window ps cs d bt = .error .zeroDivision := by
  have hk0 : pyInt (d * 2) = 0 := by
    rw [pyInt, if_neg (by nlinarith : ¬ d * 2 < 0), Int.floor_eq_zero_iff]
    constructor
    · nlinarith
    · nlinarith
  rw [Analyzer.find_optimal_window,
    if_neg (by simp [List.length_eq_zero, hps, hcs]),
    if_neg (by simpa [List.length_eq_zero] using hdata), hk0]
  simp only [searchBest_error_of_nonpos a (align_data ps cs) 0 le_rfl
    (by simpa [List.length_eq_zero] using hdata)]

section ConcreteEvaluation

attribute [local semireducible] Rat.add Rat.sub Rat.mul Rat.inv

/-- Claim C9 counterexample: with exactly 8 comparisons in the period — fewer
than the claimed 7+7 — the code still classifies a trend (`"stable"` here,
comparing the recent 7 against the single next-older record) instead of
reporting `"insufficient_data"`. -/
theorem C9_trend_counterexample :
    eightComparisons.length = 8 ∧ (8 : ℕ) < 14 ∧
    get_recent_trend eightComparisons 30 = "stable" ∧
    "stable" ≠ "insufficient_data" := by
  decide

/-- Claim C6 witness: one prior call, then two recordings on day 4 for target
day 5 leave exactly one snapshot dated 4. -/
theorem C6_snapshot_witness :
    (4 : ℤ) ≤ 5 ∧
    ((record_snapshot_op 4 5 "octopus_actual" none
        (record_snapshot_op 4 5 "forecast" (some 3)
          (snapshots_after 5 [(3, "forecast", none)]))).filter
      (fun s => s.snapshot_date == 4)).length = 1 :=
  ⟨by decide,
   (C6_snapshot_invariants 5 [(3, "forecast", none)]).2.2 4 "forecast"
     "octopus_actual" (some 3) none (by decide)⟩

set_option maxRecDepth 8000

/-- Claim C1 counterexample: a 48-slot series in which slots `[4, 12)` have
uniformly lower price (4p vs 5p) and carbon (40g vs 50g) than all others, yet
every price is below the excellent threshold, so every 8-slot window scores
100 and the first window (index 0, minute 0) wins — not the stretch's first
index 4 (minute 120). -/
theorem C1_uniform_stretch_counterexample :
    allCheapPrices.length = 48 ∧
    (Analyzer.find_optimal_window {} allCheapPrices allCheapCarbons 4
      none).map (·.start) = .ok 0 ∧
    (0 : ℤ) ≠ 4 * 30 := by
  decide

/-- Claim C1 witness: two aligned slots (20p then 5p) and a half-hour charge;
the second one-slot window has the strictly higher score. -/
theorem C1_first_maximum_witness :
    0 ≤ ({} : Analyzer).price_weight ∧ 0 ≤ ({} : Analyzer).carbon_weight ∧
    twoPriceSlots ≠ [] ∧ twoCarbonSlots ≠ [] ∧
    1 ≤ pyInt ((1/2 : ℚ) * 2) ∧
    pyInt ((1/2 : ℚ) * 2) ≤
      ((align_data twoPriceSlots twoCarbonSlots).length : ℤ) ∧
    (∃ (j : ℕ) (w : ChargingWindow),
      ({} : Analyzer).find_optimal_window twoPriceSlots twoCarbonSlots (1/2)
        none = .ok w ∧
      ((align_data twoPriceSlots twoCarbonSlots)[j]?.map (·.time)) =
        some w.start ∧
      w.opportunity_score = ({} : Analyzer).slotWindowScore
        (align_data twoPriceSlots twoCarbonSlots) (pyInt ((1/2 : ℚ) * 2)) j ∧
      (∀ i : ℕ, (i : ℤ) + pyInt ((1/2 : ℚ) * 2) ≤
          ((align_data twoPriceSlots twoCarbonSlots).length : ℤ) →
        ({} : Analyzer).slotWindowScore
          (align_data twoPriceSlots twoCarbonSlots) (pyInt ((1/2 : ℚ) * 2)) i ≤
        ({} : Analyzer).slotWindowScore
          (align_data twoPriceSlots twoCarbonSlots) (pyInt ((1/2 : ℚ) * 2)) j) ∧
      (∀ i < j,
        ({} : Analyzer).slotWindowScore
          (align_data twoPriceSlots twoCarbonSlots) (pyInt ((1/2 : ℚ) * 2)) i <
        ({} : Analyzer).slotWindowScore
          (align_data twoPriceSlots twoCarbonSlots) (pyInt ((1/2 : ℚ) * 2)) j)) :=
  ⟨by decide, by decide, by decide, by decide, by decide, by decide,
   C1_first_maximum_window {} twoPriceSlots twoCarbonSlots (1/2) (by decide)
     (by decide) (by decide) (by decide) (by decide) (by decide)⟩

/-- Claim C2 counterexample: for a 1.9-hour charge over four 30-minute-spaced
aligned slots the code computes `int(3.8) = 3` slots and a 90-minute window,
while the claimed `round(3.8) = 4` slots would span 120 minutes. -/
theorem C2_round_counterexample :
    pyRound ((19/10 : ℚ) * 2) = 4 ∧
    (Analyzer.find_optimal_window {} fourPriceSlots fourCarbonSlots (19/10)
      none).map (fun w => w.«end» - w.start) = .ok 90 ∧
    (90 : ℤ) ≠ 4 * 30 := by
  decide

/-- Claim C2 witness: a 2-hour charge over the four 30-minute-spaced slots
spans exactly `30 × int(2 × 2) = 120` minutes. -/
theorem C2_window_span_witness :
    List.Chain' (fun x y => y.time = x.time + 30)
      (align_data fourPriceSlots fourCarbonSlots) ∧
    (∃ w : ChargingWindow,
      ({} : Analyzer).find_optimal_window fourPriceSlots fourCarbonSlots 2
        none = .ok w ∧
      w.«end» - w.start = 30 * pyInt ((2 : ℚ) * 2)) := by
  have hlist : align_data fourPriceSlots fourCarbonSlots =
      [⟨0, 10, 100⟩, ⟨30, 10, 100⟩, ⟨60, 10, 100⟩, ⟨90, 10, 100⟩] := by decide
  have hchain : List.Chain' (fun x y : AlignedSlot => y.time = x.time + 30)
      (align_data fourPriceSlots fourCarbonSlots) := by
    rw [hlist]
    exact List.chain'_cons.2 ⟨by decide, List.chain'_cons.2 ⟨by decide,
      List.chain'_cons.2 ⟨by decide, List.chain'_singleton _⟩⟩⟩
  exact ⟨hchain,
    C2_window_span {} fourPriceSlots fourCarbonSlots 2 (by decide) (by decide)
      (by decide) (by decide) (by decide) (by decide) hchain⟩

/-- Claim C8 witness: a single −5p aligned slot; the produced window has
negative total cost and earnings `|−5| × 30 / 100 = £1.50`. -/
theorem C8_negative_pricing_witness :
    ({} : Analyzer).find_optimal_window negPriceSlots negCarbonSlots (1/2)
      none = .ok negWindow ∧
    (0 : ℚ) < 30 ∧ negWindow.avg_price < 0 ∧
    (negWindow.total_cost < 0 ∧
      negWindow.get_earnings_estimate 30 =
        some (|negWindow.avg_price| * 30 / 100) ∧
      0 < |negWindow.avg_price| * 30 / 100) :=
  ⟨by decide, by decide, by decide,
   (C8_negative_pricing_earnings {} negPriceSlots negCarbonSlots (1/2) none
     negWindow 30 (by decide) (by decide)).1 (by decide)⟩

/-- Claim C10 witness: a quarter-hour charge duration over one aligned slot
raises the division-by-zero error. -/
theorem C10_zero_window_witness :
    (0 : ℚ) < 1/4 ∧ (1/4 : ℚ) < 1/2 ∧
    ({} : Analyzer).find_optimal_window negPriceSlots negCarbonSlots (1/4)
      none = .error .zeroDivision :=
  ⟨by decide, by decide,
   C10_zero_window_division {} negPriceSlots negCarbonSlots (1/4) none
     (by decide) (by decide) (by decide) (by decide) (by decide)⟩

end ConcreteEvaluation

end OctopusScanner
